import Mathlib

/-! # The `add user` command of nsc (`cmd/adduser.go`)

A shallow embedding of `AddUserParams` and its methods `SetDefaults`,
`Validate`, `Run` and `editUserClaim`.

* Go pointers to mutable structs become explicit state passing: a method
  returns the updated receiver (and context) next to its `error` result.
* A Go `error` is `Option Error`; `none` is `nil`.
* A Go `(value, error)` result is kept as a pair, because the source assigns
  the value before it looks at the error.
* Everything the file calls but does not declare (the store context, the
  key resolver, the prompts, the methods of the embedded `Entity` and
  `TimeParams`) is a field holding the outcome of the call, or a function
  from the state the call is made on to its outcome. The few definitions
  that describe such code from the specification say so in their comment.
* The methods of the claims library (`jwt.StringList`, `jwt.TagList`) and of
  the Go standard library (`sort.Strings`, `strings.ToLower`) are embedded as
  these libraries define them.
* Errors created in the file are constructors of `Error`; an error handed
  back by a collaborator is wrapped with its origin, so that two errors are
  equal only if they were created at the same place with the same text.
-/

namespace Cmd

/-! ## Errors -/

/-- The collaborators whose errors `adduser.go` passes on unchanged. -/
inductive Collaborator
  | store
  | keyResolver
  | timeParams
  | entity
  | prompt
  deriving DecidableEq, Repr

/-- Error values, told apart by where they are created. The first four are
created in `adduser.go` itself; `external` is an error handed back by a
collaborator and passed on as it is. -/
inductive Error
  | nameRequired
  | noAccounts
  | multipleAccounts
  | castFailed
  | external (origin : Collaborator) (msg : String)
  deriving DecidableEq, Repr

/-- The text of an error, as given to `fmt.Errorf` / `errors.New`. -/
def Error.message : Error → String
  | .nameRequired => "user name is required"
  | .noAccounts => "no accounts defined - add account first"
  | .multipleAccounts =>
      "multiple accounts found - specify --account-name or navigate to an account directory"
  | .castFailed => "unable to cast to user claim"
  | .external _ msg => msg

/-- Wrap the error part of a collaborator result. -/
def fromCollaborator (origin : Collaborator) : Option String → Option Error
  | none => none
  | some msg => some (.external origin msg)

/-! ## Strings, string lists and sorting -/

/-- Comparison `a <= b` of two strings, character by character. Go compares
the bytes of the UTF-8 encoding, which orders valid strings the same way. -/
def strLe (a b : String) : Bool := decide (¬ b.data < a.data)

/-- Insert `a` in front of the first entry that is not smaller. -/
def orderedInsert (a : String) : List String → List String
  | [] => [a]
  | b :: l => if strLe a b then a :: b :: l else b :: orderedInsert a l

/-- The call `sort.Strings(l)` of the Go standard library: the entries of `l`
in increasing order. Strings are totally ordered, so the result does not
depend on the sorting algorithm; an insertion sort is used here. -/
def sortStrings : List String → List String
  | [] => []
  | a :: l => orderedInsert a (sortStrings l)

/-- The type `jwt.StringList`, a list of strings. -/
abbrev StringList := List String

/-- The method `contains` of `jwt.StringList`: linear search for `p`. -/
def StringList.contains (u : StringList) (p : String) : Bool :=
  u.any (fun t => t == p)

/-- The method `jwt.StringList.Add` of the claims library, which is not part
of this repository: in argument order, every argument that is not yet in the
list and is not the empty string is appended. In Go:
`for _, v := range p { if !u.contains(v) && v != "" { *u = append(*u, v) } }`. -/
def StringList.Add (u : StringList) (p : List String) : StringList :=
  p.foldl (fun acc v => if !(acc.contains v) && v != "" then acc ++ [v] else acc) u

/-- The call `strings.ToLower(s)`, on the letters `A` to `Z`; every other
character is left as it is. -/
def toLower (s : String) : String := ⟨s.data.map Char.toLower⟩

/-- The type `jwt.TagList`, a list of lower case strings. -/
abbrev TagList := List String

/-- The method `jwt.TagList.Contains`: linear search for `p` in lower case. -/
def TagList.contains (u : TagList) (p : String) : Bool :=
  u.any (fun t => t == toLower p)

/-- The method `jwt.TagList.Add` of the claims library: as for a string list,
with every argument put in lower case first. In Go:
`for _, v := range p { v = strings.ToLower(v); if !u.Contains(v) && v != "" { *u = append(*u, v) } }`. -/
def TagList.Add (u : TagList) (p : List String) : TagList :=
  p.foldl
    (fun acc v =>
      if !(TagList.contains acc (toLower v)) && toLower v != "" then acc ++ [toLower v] else acc)
    u

/-! ## The claim being edited -/

/-- One direction of permissions (`jwt.Permission`). -/
structure Permission where
  Allow : StringList
  Deny : StringList
  deriving DecidableEq, Repr

/-- The field group `jwt.Permissions`. -/
structure Permissions where
  Pub : Permission
  Sub : Permission
  deriving DecidableEq, Repr

/-- The parts of `jwt.UserClaims` that the command reads or writes: validity
bounds, the embedded permissions and the tags. `Other` stands for all the
remaining content of the claim, which the command does not look at. -/
structure UserClaims extends Permissions where
  NotBefore : Int
  Expires : Int
  Tags : TagList
  Other : String
  deriving DecidableEq, Repr

/-- The value of an `interface{}` argument handed to an editor callback:
a pointer to user claims, or a value of some other dynamic type. -/
inductive Claims
  | user (uc : UserClaims)
  | other
  deriving DecidableEq, Repr

/-- A user claim with every field at its zero value. -/
def UserClaims.fresh : UserClaims :=
  { Pub := ⟨[], []⟩, Sub := ⟨[], []⟩, NotBefore := 0, Expires := 0, Tags := [], Other := "" }

/-! ## Parameters -/

/-- A resolved key pair (`nkeys.KeyPair`); `Option KeyPair` is the Go
interface value, `none` being `nil`. -/
structure KeyPair where
  seed : String
  deriving DecidableEq, Repr

/-- The key kinds named in the file, and the zero value. -/
inductive PrefixByte
  | zero
  | account
  | user
  deriving DecidableEq, Repr

/-- The editor callbacks that can be stored in `Entity.editFn`. -/
inductive EditFn
  | editUserClaim
  deriving DecidableEq, Repr

/-- The fields of the embedded `Entity` used in the file. -/
structure Entity where
  name : String
  keyPath : String
  create : Bool
  generated : Bool
  kind : PrefixByte
  editFn : Option EditFn
  deriving DecidableEq, Repr

/-- The embedded `TimeParams`, seen through its accessor methods: each field
is what the method of that name returns. -/
structure TimeParams where
  IsStartChanged : Bool
  StartDate : Int × Option String
  IsExpiryChanged : Bool
  ExpiryDate : Int × Option String
  deriving DecidableEq, Repr

/-- Modelled from the spec: `TimeParams.Validate` (declared outside
`adduser.go`), the Time Window Resolver check, which fails with
`TimeRangeError` on an unparsable bound or on an inverted range, a range
being inverted when both bounds are explicitly set and Expires is before
NotBefore. -/
def TimeParams.Validate (t : TimeParams) : Option String :=
  if t.StartDate.2.isSome then some "TimeRangeError"
  else if t.ExpiryDate.2.isSome then some "TimeRangeError"
  else if t.IsStartChanged && t.IsExpiryChanged && decide (t.ExpiryDate.1 < t.StartDate.1) then
    some "TimeRangeError"
  else none

/-- The struct `AddUserParams`. -/
structure AddUserParams extends Entity, TimeParams where
  accountKP : Option KeyPair
  accountName : String
  allowPubs : List String
  allowPubsub : List String
  allowSubs : List String
  denyPubs : List String
  denyPubsub : List String
  denySubs : List String
  src : List String
  tags : List String
  deriving DecidableEq, Repr

/-! ## Execution context -/

/-- Calls that leave the parameter object: consultations of the store and of
the key resolver, the prompt for a key path, and the two persistence steps
of `Run`. -/
inductive Event
  | listSubContainers
  | pickAccount (name : String)
  | resolveKey
  | editKeyPath
  | storeKeys (accountName : String)
  | generateClaim (signer : Option KeyPair)
  deriving DecidableEq, Repr

/-- The `ActionCtx` handed to every phase, together with the package
variable `KeyPathFlag`.
* `SilenceUsage` is `ctx.CurrentCmd().SilenceUsage`;
* `KeyPathFlag` is the package variable of that name;
* `AccountName` is `ctx.StoreCtx().Account.Name`;
* `ListSubContainers` is the result of
  `ctx.StoreCtx().Store.ListSubContainers(store.Accounts)`;
* `PickAccount name` is the result of `ctx.StoreCtx().PickAccount(name)`;
* `ResolveKey flag` is the result of
  `ctx.StoreCtx().ResolveKey(nkeys.PrefixByteAccount, flag)`;
* `trace` records the calls made so far, oldest first. -/
structure ActionCtx where
  SilenceUsage : Bool
  KeyPathFlag : String
  AccountName : String
  ListSubContainers : List String × Option String
  PickAccount : String → String × Option String
  ResolveKey : String → Option KeyPair × Option String
  trace : List Event

/-- Methods of the embedded `TimeParams` and `Entity`, and the prompt
`EditKeyPath`, all declared outside `adduser.go`, as functions of the state
they are called on; each returns the text of its error, if any, and the
editing ones also the state they leave.
* `EntityEdit` is `p.Entity.Edit()`;
* `TimeEdit` is `p.TimeParams.Edit()`;
* `EditKeyPath flag` is
  `EditKeyPath(nkeys.PrefixByteAccount, "account keypath", &KeyPathFlag)`;
* `TimeValidate` is `p.TimeParams.Validate()`;
* `EntityValid` is `p.Entity.Valid()`;
* `StoreKeys` is `p.Entity.StoreKeys(accountName)`;
* `GenerateClaim` is `p.Entity.GenerateClaim(accountKP)`. -/
structure EmbeddedMethods where
  EntityEdit : Entity → Entity × Option String
  TimeEdit : TimeParams → TimeParams × Option String
  EditKeyPath : String → String × Option String
  TimeValidate : TimeParams → Option String
  EntityValid : Entity → Option String
  StoreKeys : Entity → String → Option String
  GenerateClaim : Entity → Option KeyPair → Option String

/-- Modelled from the spec: the account the execution context selects when
none is named (`StoreCtx().Account.Name`, computed outside `adduser.go`):
with exactly one candidate account it is that account, with zero or several
candidates nothing is selected. -/
def defaultAccount (accounts : List String) : String :=
  match accounts with
  | [a] => a
  | _ => ""

/-- What a phase leaves behind: the context, the parameters, the error. -/
structure Outcome where
  ctx : ActionCtx
  params : AddUserParams
  err : Option Error

/-! ## The methods of `AddUserParams` -/

/-- The method `AddUserParams.SetDefaults`. -/
def SetDefaults (ctx : ActionCtx) (p : AddUserParams) : Outcome :=
  let p := { p with create := true, kind := PrefixByte.user, editFn := some EditFn.editUserClaim }
  let p := if p.accountName = "" then { p with accountName := ctx.AccountName } else p
  { ctx := ctx, params := p, err := none }

/-- The method `AddUserParams.PreInteractive`. -/
def PreInteractive (m : EmbeddedMethods) (ctx : ActionCtx) (p : AddUserParams) : Outcome :=
  let entity := m.EntityEdit p.toEntity
  let p := { p with toEntity := entity.1 }
  match entity.2 with
  | some e => { ctx := ctx, params := p, err := some (.external .entity e) }
  | none =>
    let ctx := { ctx with trace := ctx.trace ++ [Event.pickAccount p.accountName] }
    let picked := ctx.PickAccount p.accountName
    let p := { p with accountName := picked.1 }
    match picked.2 with
    | some e => { ctx := ctx, params := p, err := some (.external .store e) }
    | none =>
      let edited := m.TimeEdit p.toTimeParams
      let p := { p with toTimeParams := edited.1 }
      match edited.2 with
      | some e => { ctx := ctx, params := p, err := some (.external .timeParams e) }
      | none =>
        let ctx := { ctx with trace := ctx.trace ++ [Event.resolveKey] }
        let p := { p with accountKP := (ctx.ResolveKey ctx.KeyPathFlag).1 }
        match (ctx.ResolveKey ctx.KeyPathFlag).2 with
        | some e => { ctx := ctx, params := p, err := some (.external .keyResolver e) }
        | none =>
          if p.accountKP = none then
            let ctx := { ctx with trace := ctx.trace ++ [Event.editKeyPath] }
            let path := m.EditKeyPath ctx.KeyPathFlag
            let ctx := { ctx with KeyPathFlag := path.1 }
            match path.2 with
            | some e => { ctx := ctx, params := p, err := some (.external .prompt e) }
            | none => { ctx := ctx, params := p, err := none }
          else { ctx := ctx, params := p, err := none }

/-- The method `AddUserParams.Load`. -/
def Load (ctx : ActionCtx) (p : AddUserParams) : Outcome :=
  { ctx := ctx, params := p, err := none }

/-- The method `AddUserParams.PostInteractive`. -/
def PostInteractive (ctx : ActionCtx) (p : AddUserParams) : Outcome :=
  { ctx := ctx, params := p, err := none }

/-- The method `AddUserParams.Validate`. -/
def Validate (m : EmbeddedMethods) (ctx : ActionCtx) (p : AddUserParams) : Outcome :=
  if p.name = "" then
    { ctx := { ctx with SilenceUsage := false }, params := p, err := some .nameRequired }
  else if p.accountName = "" then
    let ctx := { ctx with trace := ctx.trace ++ [Event.listSubContainers] }
    match ctx.ListSubContainers with
    | (_, some e) => { ctx := ctx, params := p, err := some (.external .store e) }
    | (accounts, none) =>
      let c := accounts.length
      if c = 0 then { ctx := ctx, params := p, err := some .noAccounts }
      else { ctx := ctx, params := p, err := some .multipleAccounts }
  else
    let ctx := { ctx with trace := ctx.trace ++ [Event.resolveKey] }
    let p := { p with accountKP := (ctx.ResolveKey ctx.KeyPathFlag).1 }
    match (ctx.ResolveKey ctx.KeyPathFlag).2 with
    | some e => { ctx := ctx, params := p, err := some (.external .keyResolver e) }
    | none =>
      match m.TimeValidate p.toTimeParams with
      | some e => { ctx := ctx, params := p, err := some (.external .timeParams e) }
      | none =>
        { ctx := ctx, params := p, err := fromCollaborator .entity (m.EntityValid p.toEntity) }

/-- The method `AddUserParams.Run`. -/
def Run (m : EmbeddedMethods) (ctx : ActionCtx) (p : AddUserParams) : Outcome :=
  let ctx := { ctx with trace := ctx.trace ++ [Event.storeKeys p.accountName] }
  match m.StoreKeys p.toEntity p.accountName with
  | some e => { ctx := ctx, params := p, err := some (.external .entity e) }
  | none =>
    let ctx := { ctx with trace := ctx.trace ++ [Event.generateClaim p.accountKP] }
    match m.GenerateClaim p.toEntity p.accountKP with
    | some e => { ctx := ctx, params := p, err := some (.external .entity e) }
    | none => { ctx := ctx, params := p, err := none }

/-- Modelled from the spec: the last two phases of the Action Lifecycle
Engine (`RunAction`, declared outside `adduser.go`): Validate runs, and Run
runs only if Validate returned no error; an error aborts immediately. -/
def validateThenRun (m : EmbeddedMethods) (ctx : ActionCtx) (p : AddUserParams) : Outcome :=
  let r := Validate m ctx p
  match r.err with
  | some _ => r
  | none => Run m r.ctx r.params

/-- The method `AddUserParams.editUserClaim`: the claim after the call and
the returned error. -/
def editUserClaim (p : AddUserParams) (c : Claims) : Claims × Option Error :=
  match c with
  | .other => (c, some .castFailed)
  | .user uc =>
    let notBefore := if p.IsStartChanged then p.StartDate.1 else uc.NotBefore
    let expires := if p.IsExpiryChanged then p.ExpiryDate.1 else uc.Expires
    let pubAllow := sortStrings ((uc.Pub.Allow.Add p.allowPubs).Add p.allowPubsub)
    let pubDeny := sortStrings ((uc.Pub.Deny.Add p.denyPubs).Add p.denyPubsub)
    let subAllow := sortStrings ((uc.Sub.Allow.Add p.allowSubs).Add p.allowPubsub)
    let subDeny := sortStrings ((uc.Sub.Deny.Add p.denySubs).Add p.denyPubsub)
    let tags := sortStrings (TagList.Add uc.Tags p.tags)
    (.user { Pub := ⟨pubAllow, pubDeny⟩, Sub := ⟨subAllow, subDeny⟩,
             NotBefore := notBefore, Expires := expires, Tags := tags, Other := uc.Other },
     none)

/-! ## Sample inputs -/

/-- Parameters with every field at its zero value. -/
def AddUserParams.zero : AddUserParams :=
  { name := "", keyPath := "", create := false, generated := false, kind := .zero,
    editFn := none,
    IsStartChanged := false, StartDate := (0, none),
    IsExpiryChanged := false, ExpiryDate := (0, none),
    accountKP := none, accountName := "",
    allowPubs := [], allowPubsub := [], allowSubs := [],
    denyPubs := [], denyPubsub := [], denySubs := [], src := [], tags := [] }

/-- Embedded methods that never fail and edit nothing. -/
def EmbeddedMethods.ok : EmbeddedMethods :=
  { EntityEdit := fun e => (e, none), TimeEdit := fun t => (t, none),
    EditKeyPath := fun flag => (flag, none),
    TimeValidate := fun _ => none, EntityValid := fun _ => none,
    StoreKeys := fun _ _ => none, GenerateClaim := fun _ _ => none }

/-- Embedded methods that never fail, except that the time window is checked
as the specification describes. -/
def EmbeddedMethods.checkingTime : EmbeddedMethods :=
  { EmbeddedMethods.ok with TimeValidate := TimeParams.Validate }

/-! ## The branches of `Validate`, for the proofs -/

/-- The error `Validate` returns when the account name is missing. -/
def scopeErr (ctx : ActionCtx) : Option Error :=
  match ctx.ListSubContainers with
  | (_, some e) => some (.external .store e)
  | (accounts, none) => if accounts.length = 0 then some .noAccounts else some .multipleAccounts

/-- The error `Validate` returns once name and account name are present. -/
def keyTimeEntityErr (m : EmbeddedMethods) (ctx : ActionCtx) (p : AddUserParams) : Option Error :=
  match (ctx.ResolveKey ctx.KeyPathFlag).2 with
  | some e => some (.external .keyResolver e)
  | none =>
    match m.TimeValidate p.toTimeParams with
    | some e => some (.external .timeParams e)
    | none => fromCollaborator .entity (m.EntityValid p.toEntity)

/-- A context with an empty store, a key resolver that finds no key and
reports no error, and nothing traced yet. -/
def ActionCtx.empty : ActionCtx :=
  { SilenceUsage := true, KeyPathFlag := "", AccountName := "",
    ListSubContainers := ([], none), PickAccount := fun name => (name, none),
    ResolveKey := fun _ => (none, none), trace := [] }

/-! ## Sorting and adding: auxiliary facts -/

theorem strLe_iff (a b : String) : strLe a b = true ↔ a ≤ b := by
  unfold strLe
  rw [decide_eq_true_iff, String.le_iff_toList_le]
  exact not_lt

theorem orderedInsert_eq (a : String) (l : List String) :
    orderedInsert a l = List.orderedInsert (· ≤ ·) a l := by
  induction l with
  | nil => rfl
  | cons b l ih =>
    by_cases h : a ≤ b
    · simp [orderedInsert, List.orderedInsert, h, (strLe_iff a b).2 h]
    · have h2 : strLe a b = false := by
        cases hs : strLe a b with
        | false => rfl
        | true => exact absurd ((strLe_iff a b).1 hs) h
      simp [orderedInsert, List.orderedInsert, h, h2, ih]

theorem sortStrings_eq (l : List String) : sortStrings l = List.insertionSort (· ≤ ·) l := by
  induction l with
  | nil => rfl
  | cons a l ih => simp [sortStrings, List.insertionSort, ih, orderedInsert_eq]

theorem sortStrings_perm (l : List String) : (sortStrings l).Perm l := by
  rw [sortStrings_eq]; exact List.perm_insertionSort _ l

theorem sortStrings_sorted (l : List String) : List.Sorted (· ≤ ·) (sortStrings l) := by
  rw [sortStrings_eq]; exact List.sorted_insertionSort _ l

theorem sortStrings_of_sorted {l : List String} (h : List.Sorted (· ≤ ·) l) : sortStrings l = l := by
  rw [sortStrings_eq]; exact List.Sorted.insertionSort_eq h

theorem sortStrings_congr {l₁ l₂ : List String} (h : l₁.Perm l₂) : sortStrings l₁ = sortStrings l₂ :=
  List.eq_of_perm_of_sorted ((sortStrings_perm l₁).trans (h.trans (sortStrings_perm l₂).symm))
    (sortStrings_sorted l₁) (sortStrings_sorted l₂)

theorem mem_sortStrings {a : String} {l : List String} : a ∈ sortStrings l ↔ a ∈ l :=
  (sortStrings_perm l).mem_iff

theorem contains_iff (u : StringList) (p : String) : u.contains p = true ↔ p ∈ u := by
  unfold StringList.contains
  simp [List.any_eq_true]

theorem Add_nil (u : StringList) : u.Add [] = u := rfl

theorem Add_cons (u : StringList) (v : String) (p : List String) :
    u.Add (v :: p) = StringList.Add (if !(u.contains v) && v != "" then u ++ [v] else u) p := rfl

theorem Add_cons_skip (u : StringList) (v : String) (p : List String) (h : v ∈ u ∨ v = "") :
    u.Add (v :: p) = u.Add p := by
  rw [Add_cons]
  rcases h with h | h
  · simp [(contains_iff u v).2 h]
  · simp [h]

theorem Add_cons_append (u : StringList) (v : String) (p : List String) (h₁ : v ∉ u)
    (h₂ : v ≠ "") : u.Add (v :: p) = StringList.Add (u ++ [v]) p := by
  have hc : u.contains v = false := by
    cases hb : u.contains v with
    | false => rfl
    | true => exact absurd ((contains_iff u v).1 hb) h₁
  rw [Add_cons]
  simp [hc, h₂]

theorem count_Add (a : String) (p : List String) (u : StringList) :
    (u.Add p).count a = if a ∈ u then u.count a else if a ∈ p ∧ a ≠ "" then 1 else 0 := by
  induction p generalizing u with
  | nil =>
    by_cases h : a ∈ u
    · simp [Add_nil, h]
    · simp [Add_nil, h, List.count_eq_zero_of_not_mem h]
  | cons v p ih =>
    by_cases hv : v ∈ u ∨ v = ""
    · rw [Add_cons_skip u v p hv, ih]
      by_cases h : a ∈ u
      · simp [h]
      · rw [if_neg h, if_neg h]
        by_cases he : a = ""
        · simp [he]
        · have hne : a ≠ v := by
            rintro rfl
            rcases hv with hv | hv
            · exact h hv
            · exact he hv
          simp [he, hne]
    · have hv₁ : v ∉ u := fun h => hv (Or.inl h)
      have hv₂ : v ≠ "" := fun h => hv (Or.inr h)
      rw [Add_cons_append u v p hv₁ hv₂, ih]
      by_cases h : a ∈ u
      · have : a ≠ v := fun e => hv₁ (e ▸ h)
        simp [h, this, List.count_append, List.count_singleton]
      · by_cases e : a = v
        · subst e
          simp [h, hv₂, List.count_append, List.count_eq_zero_of_not_mem h]
        · simp [h, e]

theorem mem_Add (a : String) (p : List String) (u : StringList) :
    a ∈ u.Add p ↔ a ∈ u ∨ (a ∈ p ∧ a ≠ "") := by
  rw [← List.count_pos_iff, count_Add]
  by_cases h : a ∈ u
  · simp [h, List.count_pos_iff]
  · by_cases h2 : a ∈ p ∧ a ≠ ""
    · simp [h, h2]
    · rw [if_neg h, if_neg h2]
      simp [h, h2]

theorem Add_nodup (p : List String) (u : StringList) (h : u.Nodup) : (u.Add p).Nodup := by
  rw [List.nodup_iff_count_le_one]
  intro a
  rw [count_Add]
  split_ifs
  · exact List.nodup_iff_count_le_one.1 h a
  · exact le_rfl
  · exact Nat.zero_le 1

theorem Add_perm_congr {p q : List String} (u : StringList) (h : ∀ a, a ∈ p ↔ a ∈ q) :
    (u.Add p).Perm (u.Add q) := by
  rw [List.perm_iff_count]
  intro a
  simp only [count_Add, h a]

theorem Add_Add_perm_congr {p q r s : List String} (u : StringList)
    (h₁ : ∀ a, a ∈ p ↔ a ∈ q) (h₂ : ∀ a, a ∈ r ↔ a ∈ s) :
    ((u.Add p).Add r).Perm ((u.Add q).Add s) := by
  rw [List.perm_iff_count]
  intro a
  simp only [count_Add, mem_Add, h₁ a, h₂ a]

theorem Add_of_subset (p : List String) (u : StringList) (h : ∀ a ∈ p, a ≠ "" → a ∈ u) :
    u.Add p = u := by
  induction p with
  | nil => rfl
  | cons v p ih =>
    have hv : v ∈ u ∨ v = "" := by
      by_cases e : v = ""
      · exact Or.inr e
      · exact Or.inl (h v (List.mem_cons_self v p) e)
    rw [Add_cons_skip u v p hv]
    exact ih (fun a ha => h a (List.mem_cons_of_mem v ha))

theorem toLower_char_idem (c : Char) : c.toLower.toLower = c.toLower := by
  by_cases h : c.toNat ≥ 65 ∧ c.toNat ≤ 90
  · obtain ⟨n, hn⟩ : ∃ n, c.toNat = n := ⟨_, rfl⟩
    have hc : c = Char.ofNat n := by rw [← hn, Char.ofNat_toNat]
    rw [hn] at h
    obtain ⟨h1, h2⟩ := h
    subst hc
    clear hn
    interval_cases n <;> decide
  · have : c.toLower = c := by simp only [Char.toLower, h, if_false]
    rw [this, this]

theorem toLower_idem (s : String) : toLower (toLower s) = toLower s := by
  have h : (Char.toLower ∘ Char.toLower) = Char.toLower := funext toLower_char_idem
  simp [toLower, h]

theorem tags_Add_eq (p : List String) (u : TagList) :
    TagList.Add u p = StringList.Add u (p.map toLower) := by
  induction p generalizing u with
  | nil => rfl
  | cons v p ih =>
    show TagList.Add (if !(TagList.contains u (toLower v)) && toLower v != "" then
        u ++ [toLower v] else u) p = _
    rw [ih, List.map_cons, Add_cons]
    simp only [TagList.contains, StringList.contains, toLower_idem]

theorem tags_Add_perm_congr {p q : List String} (u : TagList) (h : p.Perm q) :
    (TagList.Add u p).Perm (TagList.Add u q) := by
  rw [tags_Add_eq, tags_Add_eq]
  exact Add_perm_congr u (fun _ => (h.map toLower).mem_iff)

/-- One merge step of the editor: add two lists, then sort. -/
theorem merge_idem (u : StringList) (p q : List String) :
    sortStrings (StringList.Add (StringList.Add (sortStrings ((u.Add p).Add q)) p) q)
      = sortStrings ((u.Add p).Add q) := by
  have hp : StringList.Add (sortStrings ((u.Add p).Add q)) p = sortStrings ((u.Add p).Add q) :=
    Add_of_subset _ _ (fun a ha hne => by
      rw [mem_sortStrings, mem_Add, mem_Add]; exact Or.inl (Or.inr ⟨ha, hne⟩))
  have hq : StringList.Add (sortStrings ((u.Add p).Add q)) q = sortStrings ((u.Add p).Add q) :=
    Add_of_subset _ _ (fun a ha hne => by
      rw [mem_sortStrings, mem_Add]; exact Or.inr ⟨ha, hne⟩)
  rw [hp, hq]
  exact sortStrings_of_sorted (sortStrings_sorted _)

theorem tags_idem (u : TagList) (p : List String) :
    sortStrings (TagList.Add (sortStrings (TagList.Add u p)) p) = sortStrings (TagList.Add u p) := by
  have hp : TagList.Add (sortStrings (TagList.Add u p)) p = sortStrings (TagList.Add u p) := by
    rw [tags_Add_eq p (sortStrings (TagList.Add u p)), tags_Add_eq p u]
    exact Add_of_subset _ _ (fun a ha hne => by
      rw [mem_sortStrings, mem_Add]; exact Or.inr ⟨ha, hne⟩)
  rw [hp]
  exact sortStrings_of_sorted (sortStrings_sorted _)

theorem sortStrings_nodup {l : List String} (h : l.Nodup) : (sortStrings l).Nodup :=
  (sortStrings_perm l).nodup_iff.2 h


/-! ## The branches of `Validate`: auxiliary facts -/

theorem TimeParams.Validate_inverted (t : TimeParams) (hs : t.IsStartChanged = true)
    (he : t.IsExpiryChanged = true) (hlt : t.ExpiryDate.1 < t.StartDate.1) :
    t.Validate = some "TimeRangeError" := by
  unfold TimeParams.Validate
  split_ifs <;> simp_all

theorem fromCollaborator_ne (o : Collaborator) (r : Option String) (e : Error)
    (he : ∀ msg, e ≠ .external o msg) : fromCollaborator o r ≠ some e := by
  cases r with
  | none => simp [fromCollaborator]
  | some msg =>
    intro h
    simp only [fromCollaborator, Option.some.injEq] at h
    exact he msg h.symm

theorem Validate_name_empty (m : EmbeddedMethods) (ctx : ActionCtx) (p : AddUserParams)
    (h : p.name = "") :
    Validate m ctx p
      = { ctx := { ctx with SilenceUsage := false }, params := p, err := some .nameRequired } := by
  simp [Validate, h]

theorem Validate_account_empty (m : EmbeddedMethods) (ctx : ActionCtx) (p : AddUserParams)
    (hn : p.name ≠ "") (h : p.accountName = "") :
    Validate m ctx p
      = { ctx := { ctx with trace := ctx.trace ++ [Event.listSubContainers] }, params := p,
          err := scopeErr ctx } := by
  simp only [Validate, if_neg hn, if_pos h, scopeErr]
  rcases hl : ctx.ListSubContainers with ⟨accounts, _ | e⟩
  · simp only []
    split_ifs <;> rfl
  · rfl

theorem Validate_account_given (m : EmbeddedMethods) (ctx : ActionCtx) (p : AddUserParams)
    (hn : p.name ≠ "") (h : p.accountName ≠ "") :
    Validate m ctx p
      = { ctx := { ctx with trace := ctx.trace ++ [Event.resolveKey] },
          params := { p with accountKP := (ctx.ResolveKey ctx.KeyPathFlag).1 },
          err := keyTimeEntityErr m ctx p } := by
  simp only [Validate, if_neg hn, if_neg h, keyTimeEntityErr]
  rcases hk : (ctx.ResolveKey ctx.KeyPathFlag).2 with _ | e
  · simp only []
    rcases ht : m.TimeValidate p.toTimeParams with _ | e
    · rfl
    · rfl
  · rfl

theorem scopeErr_ne_nameRequired (ctx : ActionCtx) : scopeErr ctx ≠ some .nameRequired := by
  unfold scopeErr
  rcases ctx.ListSubContainers with ⟨accounts, _ | e⟩
  · simp only []
    split_ifs <;> simp
  · simp

theorem scopeErr_ne_none (ctx : ActionCtx) : scopeErr ctx ≠ none := by
  unfold scopeErr
  rcases ctx.ListSubContainers with ⟨accounts, _ | e⟩
  · simp only []
    split_ifs <;> simp
  · simp

theorem keyTimeEntityErr_ne (m : EmbeddedMethods) (ctx : ActionCtx) (p : AddUserParams)
    (e : Error) (h : ∀ o msg, e ≠ .external o msg) :
    keyTimeEntityErr m ctx p ≠ some e := by
  unfold keyTimeEntityErr
  rcases (ctx.ResolveKey ctx.KeyPathFlag).2 with _ | k
  · simp only []
    rcases m.TimeValidate p.toTimeParams with _ | t
    · exact fromCollaborator_ne _ _ _ (h _)
    · simpa using (h _ t).symm
  · simpa using (h _ k).symm

/-! ## The claim editor -/

/-- C1, amended: after `editUserClaim` on a user claim, which always
succeeds, the entries of Pub.Allow are exactly the prior Pub.Allow entries
together with the non-empty entries of allowPubs and allowPubsub; Pub.Deny
receives the non-empty entries of denyPubs and denyPubsub, Sub.Allow those of
allowSubs and allowPubsub, Sub.Deny those of denySubs and denyPubsub. On a
fresh claim with allow-pub `foo.>`, allow-pubsub `bar.>` and deny-sub `baz.>`
the result has Pub.Allow `bar.>, foo.>`, Sub.Allow `bar.>`, Sub.Deny `baz.>`
and an empty Pub.Deny. -/
theorem editUserClaim_permissions :
    (∀ (p : AddUserParams) (uc : UserClaims),
      ∃ uc', editUserClaim p (.user uc) = (.user uc', none) ∧
        (∀ a, a ∈ uc'.Pub.Allow ↔
          a ∈ uc.Pub.Allow ∨ (a ≠ "" ∧ (a ∈ p.allowPubs ∨ a ∈ p.allowPubsub))) ∧
        (∀ a, a ∈ uc'.Pub.Deny ↔
          a ∈ uc.Pub.Deny ∨ (a ≠ "" ∧ (a ∈ p.denyPubs ∨ a ∈ p.denyPubsub))) ∧
        (∀ a, a ∈ uc'.Sub.Allow ↔
          a ∈ uc.Sub.Allow ∨ (a ≠ "" ∧ (a ∈ p.allowSubs ∨ a ∈ p.allowPubsub))) ∧
        (∀ a, a ∈ uc'.Sub.Deny ↔
          a ∈ uc.Sub.Deny ∨ (a ≠ "" ∧ (a ∈ p.denySubs ∨ a ∈ p.denyPubsub)))) ∧
    editUserClaim
        { AddUserParams.zero with
            name := "u", allowPubs := ["foo.>"], allowPubsub := ["bar.>"], denySubs := ["baz.>"] }
        (.user UserClaims.fresh)
      = (.user { UserClaims.fresh with
                   Pub := ⟨["bar.>", "foo.>"], []⟩, Sub := ⟨["bar.>"], ["baz.>"]⟩ }, none) := by
  refine ⟨fun p uc => ⟨_, rfl, ?_, ?_, ?_, ?_⟩, by decide⟩ <;>
    intro a <;> simp only [mem_sortStrings, mem_Add] <;> tauto

/-- C1 as stated fails: with allow-pub `a,,b`, whose second entry is empty,
on a fresh claim, Pub.Allow becomes `a, b`; the empty entry of allowPubs is
not an entry of Pub.Allow. -/
theorem editUserClaim_drops_empty_entry :
    editUserClaim { AddUserParams.zero with name := "u", allowPubs := ["a", "", "b"] }
        (.user UserClaims.fresh)
      = (.user { UserClaims.fresh with Pub := ⟨["a", "b"], []⟩ }, none) ∧
    ¬ (∀ uc',
        editUserClaim { AddUserParams.zero with name := "u", allowPubs := ["a", "", "b"] }
          (.user UserClaims.fresh) = (.user uc', none) →
        ∀ a, a ∈ uc'.Pub.Allow ↔
          a ∈ UserClaims.fresh.Pub.Allow ∨
          a ∈ ({ AddUserParams.zero with
                  name := "u", allowPubs := ["a", "", "b"] } : AddUserParams).allowPubs ∨
          a ∈ ({ AddUserParams.zero with
                  name := "u", allowPubs := ["a", "", "b"] } : AddUserParams).allowPubsub) := by
  have hev : editUserClaim { AddUserParams.zero with name := "u", allowPubs := ["a", "", "b"] }
        (.user UserClaims.fresh)
      = (.user { UserClaims.fresh with Pub := ⟨["a", "b"], []⟩ }, none) := by decide
  refine ⟨hev, fun h => ?_⟩
  have h0 := (h _ hev "").2 (Or.inr (Or.inl (by decide)))
  exact absurd h0 (by decide)

/-- C2: when the four permission lists of the claim are duplicate-free
(an empty list is), each of the four lists after `editUserClaim` is sorted in
ascending order and has no duplicate entry, whatever repetitions the inputs
contain. -/
theorem editUserClaim_sorted_nodup (p : AddUserParams) (uc : UserClaims)
    (hpa : uc.Pub.Allow.Nodup) (hpd : uc.Pub.Deny.Nodup)
    (hsa : uc.Sub.Allow.Nodup) (hsd : uc.Sub.Deny.Nodup) :
    ∃ uc', editUserClaim p (.user uc) = (.user uc', none) ∧
      (List.Sorted (· ≤ ·) uc'.Pub.Allow ∧ uc'.Pub.Allow.Nodup) ∧
      (List.Sorted (· ≤ ·) uc'.Pub.Deny ∧ uc'.Pub.Deny.Nodup) ∧
      (List.Sorted (· ≤ ·) uc'.Sub.Allow ∧ uc'.Sub.Allow.Nodup) ∧
      (List.Sorted (· ≤ ·) uc'.Sub.Deny ∧ uc'.Sub.Deny.Nodup) :=
  ⟨_, rfl,
    ⟨sortStrings_sorted _, sortStrings_nodup (Add_nodup _ _ (Add_nodup _ _ hpa))⟩,
    ⟨sortStrings_sorted _, sortStrings_nodup (Add_nodup _ _ (Add_nodup _ _ hpd))⟩,
    ⟨sortStrings_sorted _, sortStrings_nodup (Add_nodup _ _ (Add_nodup _ _ hsa))⟩,
    ⟨sortStrings_sorted _, sortStrings_nodup (Add_nodup _ _ (Add_nodup _ _ hsd))⟩⟩

/-- Witness of C2: the pattern `a` is given twice in allow-pub, once more in
allow-pubsub, and is already in the claim. -/
theorem editUserClaim_sorted_nodup_witness :
    ∃ uc', editUserClaim
        { AddUserParams.zero with allowPubs := ["b", "a", "b", "a"], allowPubsub := ["a", "c"] }
        (.user { UserClaims.fresh with Pub := ⟨["a"], []⟩ }) = (.user uc', none) ∧
      (List.Sorted (· ≤ ·) uc'.Pub.Allow ∧ uc'.Pub.Allow.Nodup) ∧
      (List.Sorted (· ≤ ·) uc'.Pub.Deny ∧ uc'.Pub.Deny.Nodup) ∧
      (List.Sorted (· ≤ ·) uc'.Sub.Allow ∧ uc'.Sub.Allow.Nodup) ∧
      (List.Sorted (· ≤ ·) uc'.Sub.Deny ∧ uc'.Sub.Deny.Nodup) :=
  editUserClaim_sorted_nodup _ _ (by decide) (by decide) (by decide) (by decide)

/-- C3: the merge does not depend on the order of its inputs. If two
parameter sets have, list by list, permutations of the same allowPubs,
allowSubs, allowPubsub, denyPubs, denySubs, denyPubsub and tags, then on any
user claim `editUserClaim` yields the same Pub.Allow, Pub.Deny, Sub.Allow,
Sub.Deny and Tags. -/
theorem editUserClaim_order_independent (uc : UserClaims) (p q : AddUserParams)
    (h₁ : p.allowPubs.Perm q.allowPubs) (h₂ : p.allowSubs.Perm q.allowSubs)
    (h₃ : p.allowPubsub.Perm q.allowPubsub) (h₄ : p.denyPubs.Perm q.denyPubs)
    (h₅ : p.denySubs.Perm q.denySubs) (h₆ : p.denyPubsub.Perm q.denyPubsub)
    (h₇ : p.tags.Perm q.tags) :
    ∃ r s, editUserClaim p (.user uc) = (.user r, none) ∧
      editUserClaim q (.user uc) = (.user s, none) ∧
      r.Pub.Allow = s.Pub.Allow ∧ r.Pub.Deny = s.Pub.Deny ∧
      r.Sub.Allow = s.Sub.Allow ∧ r.Sub.Deny = s.Sub.Deny ∧ r.Tags = s.Tags :=
  ⟨_, _, rfl, rfl,
    sortStrings_congr (Add_Add_perm_congr _ (fun _ => h₁.mem_iff) (fun _ => h₃.mem_iff)),
    sortStrings_congr (Add_Add_perm_congr _ (fun _ => h₄.mem_iff) (fun _ => h₆.mem_iff)),
    sortStrings_congr (Add_Add_perm_congr _ (fun _ => h₂.mem_iff) (fun _ => h₃.mem_iff)),
    sortStrings_congr (Add_Add_perm_congr _ (fun _ => h₅.mem_iff) (fun _ => h₆.mem_iff)),
    sortStrings_congr (tags_Add_perm_congr _ h₇)⟩

/-- Witness of C3: every input list of the second parameter set is the
reverse of the first. -/
theorem editUserClaim_order_independent_witness :
    ∃ r s,
      editUserClaim
        { AddUserParams.zero with
            allowPubs := ["x", "y"], allowSubs := ["s", "t"], allowPubsub := ["m", "n"],
            denyPubs := ["d", "e"], denySubs := ["f", "g"], denyPubsub := ["h", "i"],
            tags := ["t1", "t2"] }
        (.user { UserClaims.fresh with Pub := ⟨["z", "a", "z"], []⟩ }) = (.user r, none) ∧
      editUserClaim
        { AddUserParams.zero with
            allowPubs := ["y", "x"], allowSubs := ["t", "s"], allowPubsub := ["n", "m"],
            denyPubs := ["e", "d"], denySubs := ["g", "f"], denyPubsub := ["i", "h"],
            tags := ["t2", "t1"] }
        (.user { UserClaims.fresh with Pub := ⟨["z", "a", "z"], []⟩ }) = (.user s, none) ∧
      r.Pub.Allow = s.Pub.Allow ∧ r.Pub.Deny = s.Pub.Deny ∧
      r.Sub.Allow = s.Sub.Allow ∧ r.Sub.Deny = s.Sub.Deny ∧ r.Tags = s.Tags :=
  editUserClaim_order_independent _ _ _ (List.Perm.swap _ _ _) (List.Perm.swap _ _ _)
    (List.Perm.swap _ _ _) (List.Perm.swap _ _ _) (List.Perm.swap _ _ _) (List.Perm.swap _ _ _)
    (List.Perm.swap _ _ _)

/-- C4: the claim editor is idempotent. Applying `editUserClaim` a second
time with the same parameters returns the same error and leaves the same
claim (Pub.Allow, Pub.Deny, Sub.Allow, Sub.Deny, Tags, NotBefore, Expires and
everything else) as applying it once. -/
theorem editUserClaim_idempotent (p : AddUserParams) (c : Claims) :
    editUserClaim p (editUserClaim p c).1 = editUserClaim p c := by
  cases c with
  | other => rfl
  | user uc =>
    simp only [editUserClaim, merge_idem, tags_idem]
    split_ifs <;> rfl

/-- C9: validity bounds are applied only if explicitly changed.
`editUserClaim` leaves NotBefore as it was unless the start was changed, and
Expires as it was unless the expiry was changed; a changed bound takes the
value returned by StartDate, respectively ExpiryDate. -/
theorem editUserClaim_validity_bounds (p : AddUserParams) (uc : UserClaims) :
    ∃ uc', editUserClaim p (.user uc) = (.user uc', none) ∧
      (p.IsStartChanged = false → uc'.NotBefore = uc.NotBefore) ∧
      (p.IsStartChanged = true → uc'.NotBefore = p.StartDate.1) ∧
      (p.IsExpiryChanged = false → uc'.Expires = uc.Expires) ∧
      (p.IsExpiryChanged = true → uc'.Expires = p.ExpiryDate.1) := by
  refine ⟨_, rfl, ?_, ?_, ?_, ?_⟩ <;> intro h <;> simp [h]

/-- C10: the source-network list is never written to the claim. Changing
only `src` in the parameters changes neither the error returned by
`editUserClaim` nor the claim it leaves. -/
theorem editUserClaim_ignores_src (p : AddUserParams) (s : List String) (c : Claims) :
    editUserClaim { p with src := s } c = editUserClaim p c := by
  cases c <;> rfl

/-! ## Validation -/

/-- C5: `Validate` fails with the name-required error, whose text is
"user name is required", if and only if the user name is empty. `Validate`
has no access to the interactive mode. With an empty name it sets
SilenceUsage to false and returns without having consulted the store or the
key resolver (the trace and the parameters are as before); with a non-empty
name it does consult one of them. -/
theorem Validate_name_required (m : EmbeddedMethods) (ctx : ActionCtx) (p : AddUserParams) :
    ((Validate m ctx p).err = some .nameRequired ↔ p.name = "") ∧
    (p.name = "" →
      (Validate m ctx p).ctx.SilenceUsage = false ∧
      (Validate m ctx p).ctx.trace = ctx.trace ∧
      (Validate m ctx p).params = p) ∧
    (p.name ≠ "" →
      (Validate m ctx p).ctx.trace = ctx.trace ++ [Event.listSubContainers] ∨
      (Validate m ctx p).ctx.trace = ctx.trace ++ [Event.resolveKey]) ∧
    Error.message .nameRequired = "user name is required" := by
  refine ⟨⟨fun h => ?_, fun h => ?_⟩, fun h => ?_, fun h => ?_, rfl⟩
  · by_contra hn
    by_cases ha : p.accountName = ""
    · rw [Validate_account_empty m ctx p hn ha] at h
      exact scopeErr_ne_nameRequired ctx h
    · rw [Validate_account_given m ctx p hn ha] at h
      exact keyTimeEntityErr_ne m ctx p _ (by simp) h
  · rw [Validate_name_empty m ctx p h]
  · rw [Validate_name_empty m ctx p h]
    exact ⟨rfl, rfl, rfl⟩
  · by_cases ha : p.accountName = ""
    · rw [Validate_account_empty m ctx p h ha]
      exact Or.inl rfl
    · rw [Validate_account_given m ctx p h ha]
      exact Or.inr rfl

/-- Witness of C5 for the empty name: nothing is traced on an empty name. -/
theorem Validate_name_required_witness :
    (Validate EmbeddedMethods.ok ActionCtx.empty AddUserParams.zero).err = some .nameRequired ∧
    (Validate EmbeddedMethods.ok ActionCtx.empty AddUserParams.zero).ctx.trace = [] :=
  ⟨(Validate_name_required EmbeddedMethods.ok ActionCtx.empty AddUserParams.zero).1.2 rfl,
   ((Validate_name_required EmbeddedMethods.ok ActionCtx.empty AddUserParams.zero).2.1 rfl).2.1⟩

/-- C6: with no account name supplied and a non-empty user name, where the
context selects the default account as described by `defaultAccount` and the
store lists accounts with non-empty names, `SetDefaults` followed by
`Validate` is decided by the number of accounts: none gives the error
"no accounts defined - add account first"; exactly one makes that account
the account name and gives neither scope error; more than one gives the
error "multiple accounts found - specify ...". -/
theorem account_scope_by_count (m : EmbeddedMethods) (ctx : ActionCtx) (p : AddUserParams)
    (accounts : List String)
    (hname : p.name ≠ "") (hacc : p.accountName = "")
    (hlist : ctx.ListSubContainers = (accounts, none))
    (hsel : ctx.AccountName = defaultAccount accounts)
    (hwf : ∀ a ∈ accounts, a ≠ "") :
    (SetDefaults ctx p).err = none ∧
    (accounts.length = 0 →
      (Validate m (SetDefaults ctx p).ctx (SetDefaults ctx p).params).err = some .noAccounts) ∧
    (∀ a, accounts = [a] →
      (Validate m (SetDefaults ctx p).ctx (SetDefaults ctx p).params).params.accountName = a ∧
      (Validate m (SetDefaults ctx p).ctx (SetDefaults ctx p).params).err ≠ some .noAccounts ∧
      (Validate m (SetDefaults ctx p).ctx (SetDefaults ctx p).params).err
        ≠ some .multipleAccounts) ∧
    (1 < accounts.length →
      (Validate m (SetDefaults ctx p).ctx (SetDefaults ctx p).params).err
        = some .multipleAccounts) ∧
    Error.message .noAccounts = "no accounts defined - add account first" ∧
    Error.message .multipleAccounts =
      "multiple accounts found - specify --account-name or navigate to an account directory" := by
  have hp : (SetDefaults ctx p).params.name ≠ "" := by
    simpa [SetDefaults, hacc] using hname
  have hc : (SetDefaults ctx p).ctx = ctx := rfl
  have ha : (SetDefaults ctx p).params.accountName = defaultAccount accounts := by
    simp [SetDefaults, hacc, hsel]
  refine ⟨rfl, fun h0 => ?_, fun a h1 => ?_, fun h2 => ?_, rfl, rfl⟩
  · have hnil : accounts = [] := List.length_eq_zero.1 h0
    subst hnil
    rw [Validate_account_empty m _ _ hp (by rw [ha]; rfl), hc]
    simp [scopeErr, hlist]
  · subst h1
    have hane : (SetDefaults ctx p).params.accountName ≠ "" := by
      rw [ha]; exact hwf a (List.mem_singleton_self a)
    rw [Validate_account_given m _ _ hp hane]
    exact ⟨ha, keyTimeEntityErr_ne m _ _ _ (by simp), keyTimeEntityErr_ne m _ _ _ (by simp)⟩
  · have hd : defaultAccount accounts = "" := by
      match accounts, h2 with
      | _ :: _ :: _, _ => rfl
    have hlen : accounts.length ≠ 0 := by omega
    rw [Validate_account_empty m _ _ hp (by rw [ha, hd]), hc]
    simp [scopeErr, hlist, hlen]

/-- Witness of C6: a store with the single account `A`. -/
theorem account_scope_by_count_witness :
    (Validate EmbeddedMethods.ok
        (SetDefaults { ActionCtx.empty with AccountName := "A", ListSubContainers := (["A"], none) }
          { AddUserParams.zero with name := "u" }).ctx
        (SetDefaults { ActionCtx.empty with AccountName := "A", ListSubContainers := (["A"], none) }
          { AddUserParams.zero with name := "u" }).params).params.accountName = "A" :=
  ((account_scope_by_count EmbeddedMethods.ok
      { ActionCtx.empty with AccountName := "A", ListSubContainers := (["A"], none) }
      { AddUserParams.zero with name := "u" } ["A"]
      (by decide) rfl rfl rfl (by decide)).2.2.1 "A" rfl).1

/-- C7 fails on the code: with name `u`, account `A` and a key resolver that
returns neither a key pair nor an error, `Validate` returns no error while
accountKP is nil, and `Run` then asks for a claim signed by the nil key. On
the same input `PreInteractive` does notice the nil key pair: it goes on to
prompt for a key path. -/
theorem Validate_accepts_missing_key :
    ActionCtx.empty.ResolveKey ActionCtx.empty.KeyPathFlag = (none, none) ∧
    (Validate EmbeddedMethods.ok ActionCtx.empty
      { AddUserParams.zero with name := "u", accountName := "A" }).err = none ∧
    (Validate EmbeddedMethods.ok ActionCtx.empty
      { AddUserParams.zero with name := "u", accountName := "A" }).params.accountKP = none ∧
    (validateThenRun EmbeddedMethods.ok ActionCtx.empty
      { AddUserParams.zero with name := "u", accountName := "A" }).ctx.trace
      = [Event.resolveKey, Event.storeKeys "A", Event.generateClaim none] ∧
    (PreInteractive EmbeddedMethods.ok ActionCtx.empty
      { AddUserParams.zero with name := "u", accountName := "A" }).ctx.trace
      = [Event.pickAccount "A", Event.resolveKey, Event.editKeyPath] := by
  exact ⟨rfl, by decide, by decide, by decide, by decide⟩

/-- C8: when the time window is checked as the specification describes and
start and expiry are both explicitly set with Expires earlier than NotBefore,
`Validate` returns an error, which is the time-range error once the name,
the account name and the key resolution pass; the lifecycle then stops after
`Validate`, so `Run` adds nothing: no key and no claim is persisted. -/
theorem inverted_window_rejected (m : EmbeddedMethods) (ctx : ActionCtx) (p : AddUserParams)
    (hm : m.TimeValidate = TimeParams.Validate)
    (hs : p.IsStartChanged = true) (he : p.IsExpiryChanged = true)
    (hlt : p.ExpiryDate.1 < p.StartDate.1) :
    (Validate m ctx p).err ≠ none ∧
    (p.name ≠ "" → p.accountName ≠ "" → (ctx.ResolveKey ctx.KeyPathFlag).2 = none →
      (Validate m ctx p).err = some (.external .timeParams "TimeRangeError")) ∧
    validateThenRun m ctx p = Validate m ctx p ∧
    (∀ e ∈ (validateThenRun m ctx p).ctx.trace,
      e ∈ ctx.trace ∨ e = Event.listSubContainers ∨ e = Event.resolveKey) := by
  have ht : m.TimeValidate p.toTimeParams = some "TimeRangeError" := by
    rw [hm]; exact TimeParams.Validate_inverted _ hs he hlt
  have herr : (Validate m ctx p).err ≠ none := by
    by_cases hn : p.name = ""
    · rw [Validate_name_empty m ctx p hn]; simp
    · by_cases ha : p.accountName = ""
      · rw [Validate_account_empty m ctx p hn ha]
        exact scopeErr_ne_none ctx
      · rw [Validate_account_given m ctx p hn ha]
        simp only [keyTimeEntityErr, ht]
        rcases (ctx.ResolveKey ctx.KeyPathFlag).2 with _ | k <;> simp
  have hrun : validateThenRun m ctx p = Validate m ctx p := by
    rcases hv : (Validate m ctx p).err with _ | e
    · exact absurd hv herr
    · simp only [validateThenRun, hv]
  refine ⟨herr, fun hn ha hk => ?_, hrun, fun e hmem => ?_⟩
  · rw [Validate_account_given m ctx p hn ha]
    simp [keyTimeEntityErr, ht, hk]
  · rw [hrun] at hmem
    by_cases hn : p.name = ""
    · rw [Validate_name_empty m ctx p hn] at hmem
      exact Or.inl hmem
    · by_cases ha : p.accountName = ""
      · rw [Validate_account_empty m ctx p hn ha] at hmem
        rcases List.mem_append.1 hmem with h | h
        · exact Or.inl h
        · exact Or.inr (Or.inl (List.mem_singleton.1 h))
      · rw [Validate_account_given m ctx p hn ha] at hmem
        rcases List.mem_append.1 hmem with h | h
        · exact Or.inl h
        · exact Or.inr (Or.inr (List.mem_singleton.1 h))

/-- Witness of C8: NotBefore is 10 and Expires is 0, both explicitly set;
the trace holds the key resolution only. -/
theorem inverted_window_rejected_witness :
    (Validate EmbeddedMethods.checkingTime ActionCtx.empty
      { AddUserParams.zero with
          name := "u", accountName := "A", IsStartChanged := true, StartDate := (10, none),
          IsExpiryChanged := true, ExpiryDate := (0, none) }).err
      = some (.external .timeParams "TimeRangeError") ∧
    (validateThenRun EmbeddedMethods.checkingTime ActionCtx.empty
      { AddUserParams.zero with
          name := "u", accountName := "A", IsStartChanged := true, StartDate := (10, none),
          IsExpiryChanged := true, ExpiryDate := (0, none) }).ctx.trace = [Event.resolveKey] :=
  ⟨(inverted_window_rejected EmbeddedMethods.checkingTime ActionCtx.empty
      { AddUserParams.zero with
          name := "u", accountName := "A", IsStartChanged := true, StartDate := (10, none),
          IsExpiryChanged := true, ExpiryDate := (0, none) }
      rfl rfl rfl (by decide)).2.1 (by decide) (by decide) rfl,
   by decide⟩

end Cmd
